import Mathlib

/-!
Verification of the "noted" Django application against its specification.

The definitions below are a shallow embedding of the Python source:
records become structures, querysets become lists, many-to-many relations
become finite sets of user ids, and view functions become pure functions
from a request description and a database snapshot to a response value.
Parts of the repository that are referenced but whose source module is
absent (the username generator in users/auth.py, the signin view in
account/views.py, the ajax_required decorator in common/, and the manager
ordering functions in content/models.py) are modelled from the
specification text, as marked in their doc comments.
-/

namespace Noted

/-- A note record: the fields of content.models.Note that the views under
content/views/note.py read or write. Likes and bookmarks are the sets of
ids of the users related through the corresponding many-to-many fields. -/
structure Note where
  slug : String
  author : Nat
  title : String
  draft : Bool
  anonymous : Bool
  pin : Bool
  views : Nat
  datetime_created : Nat
  likes : Finset Nat
  bookmarks : Finset Nat
  deriving DecidableEq

/-- Insert a note into a list sorted by the comparison le. -/
def insertBy (le : Note → Note → Bool) (n : Note) : List Note → List Note
  | [] => [n]
  | m :: ms => if le n m then n :: m :: ms else m :: insertBy le n ms

/-- Insertion sort on note lists by the comparison le. -/
def sortBy (le : Note → Note → Bool) : List Note → List Note
  | [] => []
  | n :: ns => insertBy le n (sortBy le ns)

/-- Modelled from the spec: Note.objects.by_created lives in
content/models.py, which is absent from the sources; the docstring of
NoteList in content/views/note.py describes it as ordering notes from
newest to oldest by publish date. -/
def by_created (ns : List Note) : List Note :=
  sortBy (fun a b => b.datetime_created ≤ a.datetime_created) ns

/-- Modelled from the spec: Note.objects.popular (content/models.py,
absent); per the NoteList docstring it orders notes from the most viewed
to the least. -/
def popular (ns : List Note) : List Note :=
  sortBy (fun a b => b.views ≤ a.views) ns

/-- Modelled from the spec: Note.objects.most_liked (content/models.py,
absent); per the NoteList docstring it orders notes from the most liked
to the least. -/
def most_liked (ns : List Note) : List Note :=
  sortBy (fun a b => b.likes.card ≤ a.likes.card) ns

/-- NoteList.SORTING_FUNCS_MAPPING: the dictionary mapping the order GET
parameter to an ordering manager function; lookup of any other key raises
KeyError, modelled by none. -/
def SORTING_FUNCS_MAPPING (order : String) : Option (List Note → List Note) :=
  if order = "-datetime_created" then some by_created
  else if order = "views" then some popular
  else if order = "likes" then some most_liked
  else none

/-- NoteList.get_ordering: the order GET parameter, defaulting to
"-datetime_created" when absent. -/
def get_ordering (orderParam : Option String) : String :=
  orderParam.getD "-datetime_created"

/-- NoteList.get_ordered_queryset: applies the ordering function looked up
in SORTING_FUNCS_MAPPING; none models the unhandled KeyError escaping the
view for an unknown order value. -/
def get_ordered_queryset (orderParam : Option String) (ns : List Note) :
    Option (List Note) :=
  (SORTING_FUNCS_MAPPING (get_ordering orderParam)).map (fun f => f ns)

/-- C3: when the order query parameter is absent the note list is ordered
by creation date descending (the by_created manager function), and the
values -datetime_created, views and likes select the by_created, popular
and most_liked ordering functions respectively. -/
theorem note_list_ordering_dispatch (ns : List Note) :
    get_ordered_queryset none ns = some (by_created ns) ∧
    get_ordered_queryset (some "-datetime_created") ns = some (by_created ns) ∧
    get_ordered_queryset (some "views") ns = some (popular ns) ∧
    get_ordered_queryset (some "likes") ns = some (most_liked ns) :=
  ⟨rfl, rfl, rfl, rfl⟩

/-- C9: any order value other than the three mapped keys makes the
dictionary lookup in get_ordered_queryset fail (a KeyError, an unhandled
server error), rather than falling back to the default ordering. -/
theorem note_list_unknown_order_errors (order : String) (ns : List Note)
    (h1 : order ≠ "-datetime_created") (h2 : order ≠ "views")
    (h3 : order ≠ "likes") :
    get_ordered_queryset (some order) ns = none := by
  simp only [get_ordered_queryset, get_ordering, Option.getD,
    SORTING_FUNCS_MAPPING, if_neg h1, if_neg h2, if_neg h3]
  rfl

/-- Witness for C9: the order value "foo" produces the error. -/
theorem note_list_unknown_order_errors_witness :
    get_ordered_queryset (some "foo") [] = none :=
  note_list_unknown_order_errors "foo" [] (by decide) (by decide) (by decide)

/-- A request as the AJAX note endpoints see it: the HTTP method check of
require_GET, the session state checked by login_required, the
X-Requested-With header checked by ajax_required, and the id of the
requesting user. -/
structure Request where
  isGet : Bool
  authenticated : Bool
  isAjax : Bool
  userId : Nat
  deriving DecidableEq

/-- The responses the AJAX note endpoints produce: 405 from require_GET, a
302 to the login page from login_required, 404 from get_object_or_404,
400 from HttpResponseBadRequest, or a JsonResponse whose payload is the
association list of its keys to boolean values. -/
inductive HttpResponse where
  | methodNotAllowed
  | redirectLogin
  | notFound
  | badRequest
  | json (fields : List (String × Bool))
  deriving DecidableEq

/-- get_object_or_404(Note, slug=slug) over a database snapshot. -/
def findNote (db : List Note) (slug : String) : Option Note :=
  db.find? (fun n => n.slug = slug)

/-- Body of pin_note after the decorators: 400 when the requester is not
the author, otherwise flip the pin flag, save, and report it. -/
def pin_note_core (userId : Nat) (n : Note) : HttpResponse × Note :=
  if n.author ≠ userId then (.badRequest, n)
  else (.json [("pin", !n.pin)], { n with pin := !n.pin })

/-- Body of like_note after the decorators: remove the requester from the
likes set when present, add them when absent, and report the resulting
membership. -/
def like_note_core (userId : Nat) (n : Note) : HttpResponse × Note :=
  if userId ∈ n.likes then
    (.json [("liked", false)], { n with likes := n.likes.erase userId })
  else
    (.json [("liked", true)], { n with likes := insert userId n.likes })

/-- Body of bookmark_note after the decorators: remove the requester from
the bookmarks set when present, add them when absent, and report the
resulting membership. -/
def bookmark_note_core (userId : Nat) (n : Note) : HttpResponse × Note :=
  if userId ∈ n.bookmarks then
    (.json [("bookmarked", false)], { n with bookmarks := n.bookmarks.erase userId })
  else
    (.json [("bookmarked", true)], { n with bookmarks := insert userId n.bookmarks })

/-- The decorator stack shared by pin_note, like_note and bookmark_note:
require_GET, then login_required, then ajax_required, then the note lookup.
The ajax_required decorator lives in common/ which is absent from the
sources; its 400-on-non-AJAX behaviour is modelled from the spec. -/
def ajaxNoteView (core : Nat → Note → HttpResponse × Note)
    (req : Request) (db : List Note) (slug : String) : HttpResponse :=
  if !req.isGet then .methodNotAllowed
  else if !req.authenticated then .redirectLogin
  else if !req.isAjax then .badRequest
  else
    match findNote db slug with
    | none => .notFound
    | some n => (core req.userId n).1

/-- The pin_note view. -/
def pin_note (req : Request) (db : List Note) (slug : String) : HttpResponse :=
  ajaxNoteView pin_note_core req db slug

/-- The like_note view. -/
def like_note (req : Request) (db : List Note) (slug : String) : HttpResponse :=
  ajaxNoteView like_note_core req db slug

/-- The bookmark_note view. -/
def bookmark_note (req : Request) (db : List Note) (slug : String) : HttpResponse :=
  ajaxNoteView bookmark_note_core req db slug

/-- NoteDetailsView.get_object: after fetching the note, when the
requester is not the author, issue the single update expression
views = F(views) + 1 on the views field. -/
def get_object (requester : Nat) (n : Note) : Note :=
  if requester ≠ n.author then { n with views := n.views + 1 } else n

/-- A concrete note used by counterexamples and witnesses. -/
def sampleNote : Note :=
  { slug := "s", author := 1, title := "t", draft := false,
    anonymous := false, pin := false, views := 0, datetime_created := 0,
    likes := ∅, bookmarks := ∅ }

/-- A well-formed AJAX GET request by an authenticated user with id 2,
used by counterexamples and witnesses. -/
def wellFormedReq : Request :=
  { isGet := true, authenticated := true, isAjax := true, userId := 2 }

/-- C4: on a well-formed AJAX GET naming an existing note, like_note and
bookmark_note return a JSON object with exactly one key (liked,
respectively bookmarked) whose value is the requester's membership in the
note's likes (respectively bookmarks) set after the call; each call
toggles that membership, and two consecutive calls restore the original
set. -/
theorem like_bookmark_toggle (req : Request) (db : List Note) (slug : String)
    (n : Note) (hget : req.isGet = true) (hauth : req.authenticated = true)
    (hajax : req.isAjax = true) (hfind : findNote db slug = some n) :
    (like_note req db slug =
      .json [("liked", decide (req.userId ∈ (like_note_core req.userId n).2.likes))]) ∧
    ((req.userId ∈ (like_note_core req.userId n).2.likes) ↔ req.userId ∉ n.likes) ∧
    ((like_note_core req.userId (like_note_core req.userId n).2).2.likes = n.likes) ∧
    (bookmark_note req db slug =
      .json [("bookmarked", decide (req.userId ∈ (bookmark_note_core req.userId n).2.bookmarks))]) ∧
    ((req.userId ∈ (bookmark_note_core req.userId n).2.bookmarks) ↔ req.userId ∉ n.bookmarks) ∧
    ((bookmark_note_core req.userId (bookmark_note_core req.userId n).2).2.bookmarks = n.bookmarks) := by
  have hlike : like_note req db slug = (like_note_core req.userId n).1 := by
    simp [like_note, ajaxNoteView, hget, hauth, hajax, hfind]
  have hbm : bookmark_note req db slug = (bookmark_note_core req.userId n).1 := by
    simp [bookmark_note, ajaxNoteView, hget, hauth, hajax, hfind]
  by_cases hl : req.userId ∈ n.likes <;> by_cases hb : req.userId ∈ n.bookmarks <;>
    simp [hlike, hbm, like_note_core, bookmark_note_core, hl, hb,
      Finset.insert_erase, Finset.erase_insert]

/-- Witness for C4 at a concrete request and note database. -/
theorem like_bookmark_toggle_witness :
    like_note wellFormedReq [sampleNote] "s" = .json [("liked", true)] ∧
    bookmark_note wellFormedReq [sampleNote] "s" = .json [("bookmarked", true)] := by
  have h := like_bookmark_toggle wellFormedReq [sampleNote] "s" sampleNote
    rfl rfl rfl (by decide)
  refine ⟨h.1.trans ?_, h.2.2.2.1.trans ?_⟩ <;> simp [like_note_core,
    bookmark_note_core, sampleNote, wellFormedReq]

/-- C7 counterexample: a GET of the note detail view by the note's author
does not increment the view counter, refuting the claim that every GET
for an existing note increments it by exactly one. -/
theorem note_details_author_get_does_not_increment :
    ¬ (get_object sampleNote.author sampleNote).views = sampleNote.views + 1 := by
  decide

/-- C7 amended: when the requester is not the author, get_object
increments the views field by exactly one and leaves every other field of
the note unchanged; when the requester is the author the note is
unchanged entirely. -/
theorem note_details_views_increment (requester : Nat) (n : Note) :
    (requester ≠ n.author →
      (get_object requester n).views = n.views + 1 ∧
      (get_object requester n).slug = n.slug ∧
      (get_object requester n).author = n.author ∧
      (get_object requester n).title = n.title ∧
      (get_object requester n).draft = n.draft ∧
      (get_object requester n).anonymous = n.anonymous ∧
      (get_object requester n).pin = n.pin ∧
      (get_object requester n).datetime_created = n.datetime_created ∧
      (get_object requester n).likes = n.likes ∧
      (get_object requester n).bookmarks = n.bookmarks) ∧
    (requester = n.author → get_object requester n = n) := by
  constructor
  · intro h
    simp [get_object, h]
  · intro h
    simp [get_object, h]

/-- Witness for C7 amended: a non-author GET increments the sample note's
views and an author GET leaves it unchanged. -/
theorem note_details_views_increment_witness :
    (get_object 2 sampleNote).views = sampleNote.views + 1 ∧
    get_object 1 sampleNote = sampleNote :=
  ⟨((note_details_views_increment 2 sampleNote).1 (by decide)).1,
   (note_details_views_increment 1 sampleNote).2 (by decide)⟩

/-- C8 counterexample: a well-formed AJAX GET by an authenticated user on
an existing note returns 400 from pin_note when the requester is not the
note's author, refuting the claim that such requests are never answered
with 400. -/
theorem pin_note_400_for_non_author :
    wellFormedReq.isGet = true ∧ wellFormedReq.authenticated = true ∧
    wellFormedReq.isAjax = true ∧ findNote [sampleNote] "s" = some sampleNote ∧
    pin_note wellFormedReq [sampleNote] "s" = .badRequest := by
  decide

/-- C8 amended: for an authenticated GET naming an existing note, a
non-AJAX request gets 400 from all three endpoints; an AJAX request never
gets 400 from like_note or bookmark_note, while pin_note answers 400
exactly when the requester is not the note's author. -/
theorem ajax_endpoints_400_conditions (req : Request) (db : List Note)
    (slug : String) (n : Note) (hget : req.isGet = true)
    (hauth : req.authenticated = true) (hfind : findNote db slug = some n) :
    (req.isAjax = false →
      pin_note req db slug = .badRequest ∧
      like_note req db slug = .badRequest ∧
      bookmark_note req db slug = .badRequest) ∧
    (req.isAjax = true →
      like_note req db slug ≠ .badRequest ∧
      bookmark_note req db slug ≠ .badRequest ∧
      (pin_note req db slug = .badRequest ↔ n.author ≠ req.userId)) := by
  constructor
  · intro hajax
    simp [pin_note, like_note, bookmark_note, ajaxNoteView, hget, hauth, hajax]
  · intro hajax
    have hlike : like_note req db slug = (like_note_core req.userId n).1 := by
      simp [like_note, ajaxNoteView, hget, hauth, hajax, hfind]
    have hbm : bookmark_note req db slug = (bookmark_note_core req.userId n).1 := by
      simp [bookmark_note, ajaxNoteView, hget, hauth, hajax, hfind]
    have hpin : pin_note req db slug = (pin_note_core req.userId n).1 := by
      simp [pin_note, ajaxNoteView, hget, hauth, hajax, hfind]
    refine ⟨?_, ?_, ?_⟩
    · by_cases hl : req.userId ∈ n.likes <;> simp [hlike, like_note_core, hl]
    · by_cases hb : req.userId ∈ n.bookmarks <;>
        simp [hbm, bookmark_note_core, hb]
    · by_cases ha : n.author = req.userId <;>
        simp [hpin, pin_note_core, ha]

/-- Witness for C8 amended at a concrete request and note database. -/
theorem ajax_endpoints_400_conditions_witness :
    like_note wellFormedReq [sampleNote] "s" ≠ .badRequest ∧
    pin_note wellFormedReq [sampleNote] "s" = .badRequest :=
  have h := (ajax_endpoints_400_conditions wellFormedReq [sampleNote] "s"
    sampleNote rfl rfl (by decide)).2 rfl
  ⟨h.1, h.2.2.mpr (by decide)⟩

/-- A user record: the fields of the User model that the profile view
reads (the slug appearing in profile URLs and the username recovered from
it by User.unslugify). -/
structure UserRec where
  id : Nat
  username : String
  slug : String
  deriving DecidableEq

/-- The outcomes of ProfileNoteList.get: the redirect to the personal
notes view, a rendered profile page carrying its queryset, a 404 from
get_object_or_404(User, ...), or the unhandled KeyError from an unknown
order value. -/
inductive ProfileResponse where
  | redirectPersonal
  | rendered (notes : List Note)
  | notFound
  | serverError
  deriving DecidableEq

/-- ProfileNoteList.get_queryset after the user lookup: the ordered
queryset filtered by author=user, draft=False, anonymous=False. -/
def profile_queryset (u : UserRec) (order : Option String) (db : List Note) :
    Option (List Note) :=
  (get_ordered_queryset order db).map
    (List.filter (fun n => n.author = u.id && !n.draft && !n.anonymous))

/-- The pins entry of ProfileNoteList.get_context_data:
get_queryset().filter(pin=True). -/
def profile_pins (u : UserRec) (order : Option String) (db : List Note) :
    Option (List Note) :=
  (profile_queryset u order db).map (List.filter (fun n => n.pin))

/-- The user lookup of ProfileNoteList.get_queryset:
get_object_or_404(User, username=User.unslugify(slug)). User.unslugify
lives in users/models.py, absent from the sources, so it is kept as an
arbitrary function parameter; no claim depends on its definition. -/
def findProfileUser (unslugify : String → String) (users : List UserRec)
    (slug : String) : Option UserRec :=
  users.find? (fun u => u.username = unslugify slug)

/-- ProfileNoteList.get: when the requester is authenticated and the
requested slug is their own, redirect to the personal notes view;
otherwise render the list (404 when no user matches the slug). The
requester is none for an anonymous visitor. -/
def ProfileNoteList_get (unslugify : String → String)
    (requester : Option UserRec) (slug : String) (users : List UserRec)
    (order : Option String) (db : List Note) : ProfileResponse :=
  if (requester.map (fun u => u.slug == slug)).getD false then
    .redirectPersonal
  else
    match findProfileUser unslugify users slug with
    | none => .notFound
    | some u =>
      match profile_queryset u order db with
      | none => .serverError
      | some qs => .rendered qs

/-- C5: an authenticated user requesting the public profile route with
their own slug is redirected to the personal notes view, so the public
profile template is not rendered; with any other slug the public profile
list is rendered, or a 404 results when no user matches the slug. Stated
for the default ordering, for which the queryset lookup cannot fail. -/
theorem profile_own_slug_redirects (unslugify : String → String)
    (slug : String) (users : List UserRec) (db : List Note) :
    (∀ u : UserRec, u.slug = slug →
      ProfileNoteList_get unslugify (some u) slug users none db =
        .redirectPersonal) ∧
    (∀ requester : Option UserRec,
      (∀ u : UserRec, requester = some u → u.slug ≠ slug) →
      ((∃ u : UserRec, findProfileUser unslugify users slug = some u ∧
          ProfileNoteList_get unslugify requester slug users none db =
            .rendered (by_created db |>.filter
              (fun n => n.author = u.id && !n.draft && !n.anonymous))) ∨
        (findProfileUser unslugify users slug = none ∧
          ProfileNoteList_get unslugify requester slug users none db =
            .notFound))) := by
  constructor
  · intro u hu
    simp [ProfileNoteList_get, hu]
  · intro requester hreq
    have hguard : (requester.map (fun u => u.slug == slug)).getD false = false := by
      match requester with
      | none => rfl
      | some u => simpa using hreq u rfl
    match hfind : findProfileUser unslugify users slug with
    | none =>
      right
      simp [ProfileNoteList_get, hguard, hfind]
    | some u =>
      left
      refine ⟨u, rfl, ?_⟩
      simp [ProfileNoteList_get, hguard, hfind, profile_queryset,
        get_ordered_queryset, get_ordering, SORTING_FUNCS_MAPPING]

/-- Witness for C5: with a one-user database, the user's own slug
redirects and a foreign slug renders the profile list. -/
theorem profile_own_slug_redirects_witness :
    ProfileNoteList_get id (some { id := 1, username := "@a", slug := "@a" })
      "@a" [{ id := 1, username := "@a", slug := "@a" }] none [] =
      .redirectPersonal ∧
    ProfileNoteList_get id (some { id := 1, username := "@a", slug := "@a" })
      "@b" [] none [] = .notFound := by
  constructor
  · exact (profile_own_slug_redirects id "@a"
      [{ id := 1, username := "@a", slug := "@a" }] []).1
      { id := 1, username := "@a", slug := "@a" } rfl
  · have h := (profile_own_slug_redirects id "@b" [] []).2
      (some { id := 1, username := "@a", slug := "@a" })
      (by intro u hu; cases hu; decide)
    rcases h with ⟨u, hu, _⟩ | ⟨_, h2⟩
    · simp [findProfileUser] at hu
    · exact h2

/-- C10: every note in the queryset rendered by the public profile view,
and every note among its pins, has the selected user as author, is not a
draft and is not anonymous; in particular an anonymous note never appears
on its author's public profile page. -/
theorem profile_queryset_only_public_non_anonymous (u : UserRec)
    (order : Option String) (db : List Note) (qs ps : List Note)
    (hq : profile_queryset u order db = some qs)
    (hp : profile_pins u order db = some ps) :
    (∀ n ∈ qs, n.author = u.id ∧ n.draft = false ∧ n.anonymous = false) ∧
    (∀ n ∈ ps, n.author = u.id ∧ n.draft = false ∧ n.anonymous = false ∧
      n.pin = true) := by
  have hps : ps = qs.filter (fun n => n.pin) := by
    rw [profile_pins, hq] at hp
    simpa using hp.symm
  have hmem : ∀ n ∈ qs, n.author = u.id ∧ n.draft = false ∧
      n.anonymous = false := by
    intro n hn
    rcases ho : get_ordered_queryset order db with _ | os
    · rw [profile_queryset, ho] at hq
      exact absurd hq (by simp)
    · rw [profile_queryset, ho] at hq
      simp only [Option.map_some', Option.some.injEq] at hq
      rw [← hq] at hn
      have hpred := List.of_mem_filter hn
      simp only [Bool.and_eq_true, decide_eq_true_eq, Bool.not_eq_true'] at hpred
      exact ⟨hpred.1.1, hpred.1.2, hpred.2⟩
  refine ⟨hmem, ?_⟩
  intro n hn
  rw [hps] at hn
  have h1 := List.of_mem_filter hn
  have h2 := List.mem_of_mem_filter hn
  have h3 := hmem n h2
  exact ⟨h3.1, h3.2.1, h3.2.2, by simpa using h1⟩

/-- Witness for C10 at a concrete user and note database. -/
theorem profile_queryset_only_public_non_anonymous_witness :
    sampleNote.author = 1 ∧ sampleNote.draft = false ∧
      sampleNote.anonymous = false :=
  (profile_queryset_only_public_non_anonymous
    { id := 1, username := "@a", slug := "@a" } none [sampleNote]
    [sampleNote] [] (by decide) (by decide)).1 sampleNote (by decide)

/-- The expression data.replace(" ", "") in SignupForm.clean_first_name:
every space character is removed. -/
def removeSpaces (s : String) : String :=
  ⟨s.data.filter (fun c => c != ' ')⟩

/-- Python str.isalpha relative to a letter predicate: true on a nonempty
string all of whose characters are letters. The predicate abstracts
Python's Unicode notion of an alphabetic character. -/
def pyIsAlpha (isLetter : Char → Bool) (s : String) : Bool :=
  !s.data.isEmpty && s.data.all isLetter

/-- Helper for pySplitWords: scans the characters, accumulating the
current word in reverse. -/
def splitWordsAux : List Char → List Char → List String
  | [], acc => if acc.isEmpty then [] else [⟨acc.reverse⟩]
  | c :: cs, acc =>
    if c.isWhitespace then
      if acc.isEmpty then splitWordsAux cs []
      else ⟨acc.reverse⟩ :: splitWordsAux cs []
    else splitWordsAux cs (c :: acc)

/-- Python str.split() with no separator: the whitespace-separated words
of the string, empty pieces discarded. -/
def pySplitWords (s : String) : List String :=
  splitWordsAux s.data []

/-- Outcome of a form field clean method: a field-level ValidationError
or the cleaned value. -/
inductive CleanResult where
  | fieldError (msg : String)
  | ok (value : String)
  deriving DecidableEq

/-- SignupForm.clean_first_name: a ValidationError when the name with
spaces removed is not isalpha, then a ValidationError when the name has
more than three words, otherwise the data unchanged. -/
def clean_first_name (isLetter : Char → Bool) (data : String) : CleanResult :=
  if !pyIsAlpha isLetter (removeSpaces data) then
    .fieldError "Full Name should contain only latin letters."
  else if 3 < (pySplitWords data).length then
    .fieldError "Full Name should include no more than 3 words."
  else .ok data

/-- C6: for a submitted name that still has a non-space character (the
field is declared with strip=True and min_length=3, so the cleaned data
reaching clean_first_name is nonempty and not all spaces), validation
fails with a field-level error exactly when the name with spaces removed
contains a non-letter character or the name has more than three
whitespace-separated words; otherwise the name is returned unchanged. -/
theorem clean_first_name_spec (isLetter : Char → Bool) (data : String)
    (hne : ∃ c ∈ data.data, c ≠ ' ') :
    ((∃ msg, clean_first_name isLetter data = .fieldError msg) ↔
      ((∃ c ∈ (removeSpaces data).data, isLetter c = false) ∨
        3 < (pySplitWords data).length)) ∧
    (¬ ((∃ c ∈ (removeSpaces data).data, isLetter c = false) ∨
        3 < (pySplitWords data).length) →
      clean_first_name isLetter data = .ok data) := by
  have hlne : (removeSpaces data).data ≠ [] := by
    rcases hne with ⟨c, hc, hcs⟩
    intro hnil
    have hcm : c ∈ (removeSpaces data).data :=
      List.mem_filter.mpr ⟨hc, by simpa using hcs⟩
    rw [hnil] at hcm
    exact absurd hcm (List.not_mem_nil c)
  have hie : (removeSpaces data).data.isEmpty = false := by
    cases h : (removeSpaces data).data with
    | nil => exact absurd h hlne
    | cons a l => rfl
  have hpy : pyIsAlpha isLetter (removeSpaces data) =
      (removeSpaces data).data.all isLetter := by
    simp [pyIsAlpha, hie]
  have hex : (∃ c ∈ (removeSpaces data).data, isLetter c = false) ↔
      (removeSpaces data).data.all isLetter = false := by
    rw [List.all_eq_false]
    simp
  cases hall : (removeSpaces data).data.all isLetter with
  | false =>
    have hc : clean_first_name isLetter data =
        .fieldError "Full Name should contain only latin letters." := by
      simp [clean_first_name, hpy, hall]
    constructor
    · exact ⟨fun _ => Or.inl (hex.mpr hall), fun _ => ⟨_, hc⟩⟩
    · intro hn
      exact absurd (Or.inl (hex.mpr hall)) hn
  | true =>
    by_cases hlen : 3 < (pySplitWords data).length
    · have hc : clean_first_name isLetter data =
          .fieldError "Full Name should include no more than 3 words." := by
        simp [clean_first_name, hpy, hall, hlen]
      constructor
      · exact ⟨fun _ => Or.inr hlen, fun _ => ⟨_, hc⟩⟩
      · intro hn
        exact absurd (Or.inr hlen) hn
    · have hc : clean_first_name isLetter data = .ok data := by
        simp [clean_first_name, hpy, hall, hlen]
      constructor
      · constructor
        · rintro ⟨msg, hm⟩
          rw [hc] at hm
          exact absurd hm (by simp)
        · rintro (hbad | hbad)
          · rw [hex] at hbad
            rw [hall] at hbad
            exact absurd hbad (by simp)
          · exact absurd hbad hlen
      · intro _
        exact hc

/-- Witness for C6: the name "Some Name" passes validation unchanged. -/
theorem clean_first_name_spec_witness :
    clean_first_name Char.isAlpha "Some Name" = .ok "Some Name" := by
  exact (clean_first_name_spec Char.isAlpha "Some Name" (by decide)).2
    (by decide)

/-- Modelled from the spec: the slug built by generate_username in
users/auth.py (absent from the sources). Per the spec and users/tests.py
the username is the first name lower-cased with its words joined by dots,
prefixed by the at sign: "Some Name" becomes "@some.name". pyLower models
Python str.lower character by character. -/
def pyLower (s : String) : String :=
  ⟨s.data.map Char.toLower⟩

/-- Modelled from the spec: the slug body of generate_username. -/
def slugifyName (firstName : String) : String :=
  "@" ++ String.intercalate "." ((pySplitWords firstName).map pyLower)

/-- Modelled from the spec: collision resolution of generate_username; an
incrementing numeral starting at 2 is appended until the username is
free. The fuel argument bounds the search, which always succeeds within
taken.length + 1 attempts. -/
def freeNumeral (taken : List String) (base : String) :
    Nat → Nat → String
  | 0, k => base ++ toString k
  | fuel + 1, k =>
    if (base ++ toString k) ∈ taken then freeNumeral taken base fuel (k + 1)
    else base ++ toString k

/-- Modelled from the spec: generate_username in users/auth.py (absent
from the sources). A user with no first name raises
FirstNameDoesNotSetError, modelled by none; otherwise the slug built from
the first name is returned, with an incrementing numeral suffix appended
when the slug is already taken by an existing user. -/
def generate_username (taken : List String) (firstName : String) :
    Option String :=
  if pySplitWords firstName = [] then none
  else
    let base := slugifyName firstName
    if base ∈ taken then some (freeNumeral taken base (taken.length + 1) 2)
    else some base

/-- Appending the numeral 2 changes a string, by length. -/
theorem append_two_ne (s : String) : s ++ "2" ≠ s := by
  intro h
  have h2 := congrArg String.length h
  rw [String.length_append] at h2
  have h1 : String.length "2" = 1 := rfl
  rw [h1] at h2
  omega

/-- C1: for a first name made of letter-only words, at most three of
them, username generation yields the at-sign-prefixed, lower-cased,
dot-joined slug when it is not yet taken, and appends the numeral 2 for
the second user colliding on that slug. -/
theorem generate_username_spec (firstName : String)
    (hne : pySplitWords firstName ≠ [])
    (hlen : (pySplitWords firstName).length ≤ 3)
    (halpha : ∀ w ∈ pySplitWords firstName, w.data.all Char.isAlpha = true) :
    generate_username [] firstName =
      some ("@" ++ String.intercalate "."
        ((pySplitWords firstName).map pyLower)) ∧
    generate_username [slugifyName firstName] firstName =
      some (slugifyName firstName ++ "2") := by
  constructor
  · simp [generate_username, hne, slugifyName]
  · have ht : toString 2 = "2" := rfl
    simp [generate_username, hne, freeNumeral, ht, append_two_ne]

/-- Witness for C1: "Some Name" yields "@some.name", and when that
username is taken the second user gets "@some.name2". -/
theorem generate_username_spec_witness :
    generate_username [] "Some Name" = some "@some.name" ∧
    generate_username ["@some.name"] "Some Name" = some "@some.name2" := by
  have h := generate_username_spec "Some Name" (by decide) (by decide)
    (by decide)
  constructor
  · rw [h.1]
    decide
  · have hs : slugifyName "Some Name" = "@some.name" := by decide
    rw [hs] at h
    rw [h.2]
    decide

/-- A user credential record as the signin view reads it: the email and
the stored password hash. -/
structure Credentials where
  email : String
  passwordHash : String
  deriving DecidableEq

/-- Modelled from the spec: the signin view in account/views.py (absent
from the sources; account/urls.py routes users/signin/ to it, and
users/tests.py exercises it). It answers code noemail when no user has
the posted email, success when the posted password checks against the
stored hash, and badpass otherwise. checkPassword abstracts the
framework's password verification. -/
def signin (checkPassword : String → String → Bool)
    (usersDb : List Credentials) (email password : String) : String :=
  match usersDb.find? (fun u => u.email == email) with
  | none => "noemail"
  | some u =>
    if checkPassword password u.passwordHash then "success" else "badpass"

/-- C2: signin answers success exactly for a registered email with a
correct password, noemail for an unregistered email, badpass for a
registered email with a wrong password, and these three codes are the
only possible answers. -/
theorem signin_codes (checkPassword : String → String → Bool)
    (usersDb : List Credentials) (email password : String) :
    (usersDb.find? (fun u => u.email == email) = none →
      signin checkPassword usersDb email password = "noemail") ∧
    (∀ u, usersDb.find? (fun u => u.email == email) = some u →
      ((checkPassword password u.passwordHash = true →
        signin checkPassword usersDb email password = "success") ∧
       (checkPassword password u.passwordHash = false →
        signin checkPassword usersDb email password = "badpass"))) ∧
    (signin checkPassword usersDb email password = "success" ∨
     signin checkPassword usersDb email password = "noemail" ∨
     signin checkPassword usersDb email password = "badpass") := by
  rcases hf : usersDb.find? (fun u => u.email == email) with _ | u
  · refine ⟨fun _ => ?_, fun u hu => absurd (hf.symm.trans hu) (by simp), ?_⟩
    · simp [signin, hf]
    · right
      left
      simp [signin, hf]
  · have hval : ∀ b, checkPassword password u.passwordHash = b →
        signin checkPassword usersDb email password =
          (if b then "success" else "badpass") := by
      intro b hb
      simp [signin, hf, hb]
    refine ⟨fun hn => absurd (hf.symm.trans hn) (by simp), ?_, ?_⟩
    · intro v hv
      have huv : u = v := by
        have := hf.symm.trans hv
        simpa using this
      subst huv
      exact ⟨fun hb => by simpa using hval true hb,
        fun hb => by simpa using hval false hb⟩
    · cases hb : checkPassword password u.passwordHash
      · right
        right
        simpa using hval false hb
      · left
        simpa using hval true hb

/-- Witness for C2: a one-user database answering all three codes. -/
theorem signin_codes_witness :
    signin (fun p h => p == h) [⟨"a@b.c", "pw"⟩] "a@b.c" "pw" = "success" ∧
    signin (fun p h => p == h) [⟨"a@b.c", "pw"⟩] "x@b.c" "pw" = "noemail" ∧
    signin (fun p h => p == h) [⟨"a@b.c", "pw"⟩] "a@b.c" "no" = "badpass" := by
  refine ⟨?_, ?_, ?_⟩
  · exact ((signin_codes (fun p h => p == h) [⟨"a@b.c", "pw"⟩] "a@b.c"
      "pw").2.1 ⟨"a@b.c", "pw"⟩ (by decide)).1 (by decide)
  · exact (signin_codes (fun p h => p == h) [⟨"a@b.c", "pw"⟩] "x@b.c"
      "pw").1 (by decide)
  · exact ((signin_codes (fun p h => p == h) [⟨"a@b.c", "pw"⟩] "a@b.c"
      "no").2.1 ⟨"a@b.c", "pw"⟩ (by decide)).2 (by decide)

end Noted
